import Mathlib

/-!
# Verification of the Cards-Against-Humanity backend game logic

Shallow embedding of the Go backend (`backend/gameLogic/game.go`,
`backend/gameLogic/player.go`, `backend/gameLogic/cards.go`,
`backend/gameRepo`).  Go conventions are modelled as follows:

* `uuid.UUID` values are opaque identifiers, modelled as `Nat`; the zero
  UUID `uuid.UUID{}` is `0`.  Fresh UUIDs (`uuid.New()`) are injected as
  explicit parameters.
* Go maps become association lists (`List (Nat × α)`); a map write replaces
  an existing binding or appends a new one; `delete` filters the key out.
  Go iterates maps in unspecified order; the embedding iterates in list
  order, and every property proved below is order-independent.
* Methods that mutate their receiver become state-passing functions
  returning the new state together with the Go return values; the Go
  `error` result becomes an explicit error enumeration (`Option`/`Except`),
  with one constructor per distinct `errors.New` site.
* A Go nil slice is `none`; a non-nil (possibly empty) slice is `some l`.
  This distinction matters: `make([]T, 0)` is non-nil.
* `len` on a Go string counts bytes, so it is `String.utf8ByteSize`.
* `time.Time` is modelled as `Nat`.
* `rand.Intn n` is injected as a parameter `pick` used as `pick % n`.
-/

/-- White card: catalog index (`Id int`) and text. -/
structure WhiteCard where
  id : Nat
  text : String
deriving DecidableEq, Repr

/-- Black card: catalog index, text, and number of white cards to pick. -/
structure BlackCard where
  id : Nat
  text : String
  pick : Nat
deriving DecidableEq, Repr

/-- Association-list lookup, the embedding of a Go map read. -/
def lookupA {α : Type} (k : Nat) : List (Nat × α) → Option α
  | [] => none
  | (k2, v) :: rest => if k2 = k then some v else lookupA k rest

/-- Association-list write, the embedding of a Go map assignment:
replaces an existing binding for the key, otherwise appends. -/
def insertA {α : Type} (k : Nat) (v : α) : List (Nat × α) → List (Nat × α)
  | [] => [(k, v)]
  | (k2, v2) :: rest =>
    if k2 = k then (k, v) :: rest else (k2, v2) :: insertA k v rest

/-- Association-list delete, the embedding of Go `delete(m, k)`. -/
def eraseA {α : Type} (k : Nat) (l : List (Nat × α)) : List (Nat × α) :=
  l.filter (fun p => p.1 ≠ k)

/-- The keys of an association list. -/
def keysA {α : Type} (l : List (Nat × α)) : List Nat :=
  l.map (fun p => p.1)

/-! ## Player (`player.go`) -/

/-- Go `Player` struct: hand is a Go `map[int]*WhiteCard`; the current play is
a Go slice, nil (`none`) between rounds. -/
structure Player where
  id : Nat
  name : String
  hand : List (Nat × WhiteCard)
  currentPlay : Option (List WhiteCard)
  connected : Bool
  points : Int
deriving DecidableEq, Repr

def MaxPlayerNameLength : Nat := 20
def MinPlayerNameLength : Nat := 3

/-- Embedding of `NewPlayer`: rejects names whose byte length is outside [3, 20];
the fresh `uuid.New()` is the explicit `freshId` argument. -/
def NewPlayer (freshId : Nat) (name : String) : Except Unit Player :=
  if name.utf8ByteSize > MaxPlayerNameLength ∨ name.utf8ByteSize < MinPlayerNameLength then
    .error ()
  else
    .ok { id := freshId, name := name, hand := [], currentPlay := none,
          connected := true, points := 0 }

/-- Embedding of `Player.hasCard`. -/
def Player.hasCard (p : Player) (card : WhiteCard) : Bool :=
  (lookupA card.id p.hand).isSome

/-- The distinct error returns of `Player.PlayCard`. -/
inductive PlayErr where
  | nilCards
  | alreadyPlayed
  | duplicateInPlay
  | cardNotInHand
deriving DecidableEq, Repr

/-- The validation loop of `Player.PlayCard`: walks the submitted cards
with the `cardsSeen` set, reporting a duplicate before a missing card for
each element, exactly as the Go loop does. -/
def playCardCheck (hand : List (Nat × WhiteCard)) :
    List WhiteCard → List Nat → Option PlayErr
  | [], _ => none
  | card :: rest, seen =>
    if card.id ∈ seen then some .duplicateInPlay
    else if (lookupA card.id hand).isNone then some .cardNotInHand
    else playCardCheck hand rest (card.id :: seen)

/-- Embedding of `Player.PlayCard`: nil check, already-played check, validation loop,
then record a copy of the submission and delete the played cards from the
hand.  Returns the (possibly updated) player and the Go error. -/
def Player.PlayCard (p : Player) (cards : Option (List WhiteCard)) :
    Player × Option PlayErr :=
  match cards with
  | none => (p, some .nilCards)
  | some cs =>
    if p.currentPlay ≠ none then (p, some .alreadyPlayed)
    else
      match playCardCheck p.hand cs [] with
      | some e => (p, some e)
      | none =>
        ({ p with currentPlay := some cs,
                  hand := cs.foldl (fun h c => eraseA c.id h) p.hand }, none)

/-- Embedding of `Player.AddCardToHand`: rejects a card already present. -/
def Player.AddCardToHand (p : Player) (card : WhiteCard) :
    Player × Option Unit :=
  if p.hasCard card then (p, some ())
  else ({ p with hand := insertA card.id card p.hand }, none)

/-- Embedding of `Player.FinaliseRound`: clears the current play; touches nothing else
and returns no error. -/
def Player.FinaliseRound (p : Player) : Player :=
  { p with currentPlay := none }

/-! ## Deck and card packs (`cards.go`)

The `CardDeck` implementation (`NewCardDeck`, `AccumalateDecks`,
`GetNewBlackCard`, `GetNewWhiteCards`) is not part of the sources at hand;
only its callers and the `CardPack` catalog code are.  Those operations are
modelled from the spec (sections 3 "Deck" and 4.1). -/

/-- Deck draw state: the two remaining pools. -/
structure CardDeck where
  whiteCards : List WhiteCard
  blackCards : List BlackCard
deriving DecidableEq, Repr

/-- Go `CardPack`: catalog identifier, name, contribution counts, and the
pack's own deck template. -/
structure CardPack where
  id : Nat
  name : String
  whiteCount : Nat
  blackCount : Nat
  cardDeck : CardDeck
deriving DecidableEq, Repr

/-- Keep the first occurrence of each white-card id. -/
def dedupWhite : List WhiteCard → List Nat → List WhiteCard
  | [], _ => []
  | c :: rest, seen =>
    if c.id ∈ seen then dedupWhite rest seen
    else c :: dedupWhite rest (c.id :: seen)

/-- Keep the first occurrence of each black-card id. -/
def dedupBlack : List BlackCard → List Nat → List BlackCard
  | [], _ => []
  | c :: rest, seen =>
    if c.id ∈ seen then dedupBlack rest seen
    else c :: dedupBlack rest (c.id :: seen)

/-- Modelled from the spec: `AccumalateDecks` (the deck-merge behind
`AccumalateCardPacks`) is missing from the sources; per the spec the pools
are "built by merging the selected packs' contributions" with the
invariant that "a card index appears in a pool at most once", so the
concatenated pools are deduplicated by card id. -/
def AccumalateDecks (decks : List CardDeck) : CardDeck :=
  { whiteCards := dedupWhite (decks.foldr (fun d acc => d.whiteCards ++ acc) []) [],
    blackCards := dedupBlack (decks.foldr (fun d acc => d.blackCards ++ acc) []) [] }

/-- Deck errors: empty pack selection at build time, exhausted pool at
draw time. -/
inductive DeckErr where
  | emptySelection
  | exhausted
deriving DecidableEq, Repr

/-- Embedding of `AccumalateCardPacks` (source): fails when no pack is selected,
otherwise merges the packs' decks. -/
def AccumalateCardPacks (packs : List CardPack) : Except DeckErr CardDeck :=
  match packs with
  | [] => .error .emptySelection
  | _ => .ok (AccumalateDecks (packs.map (fun p => p.cardDeck)))

/-- Modelled from the spec: `GetNewBlackCard` is missing from the sources;
per the spec it removes and returns one black card from the remaining pool
and fails with `Exhausted` when the pool is empty.  The random choice is
modelled as taking the first remaining card; every property proved below
is independent of which remaining card is chosen. -/
def CardDeck.GetNewBlackCard (d : CardDeck) : CardDeck × Option BlackCard :=
  match d.blackCards with
  | [] => (d, none)
  | c :: rest => ({ d with blackCards := rest }, some c)

/-- Modelled from the spec: `GetNewWhiteCards` is missing from the
sources; per the spec it atomically removes and returns `n` distinct white
cards and fails with `Exhausted`, removing nothing, when fewer than `n`
remain.  The random choice is modelled as taking the first `n` remaining
cards. -/
def CardDeck.GetNewWhiteCards (d : CardDeck) (n : Nat) :
    CardDeck × Option (List WhiteCard) :=
  if d.whiteCards.length < n then (d, none)
  else ({ d with whiteCards := d.whiteCards.drop n }, some (d.whiteCards.take n))

/-! ## Game settings and the game state machine (`game.go`) -/

def MinRounds : Nat := 1
def MaxRounds : Nat := 100
def MinPlayingToPoints : Nat := 2
def MaxPlayingToPoints : Nat := 50
def MaxPasswordLength : Nat := 50
def MinPlayers : Nat := 3
def MaxPlayers : Nat := 20
def MinCardPacks : Nat := 1
def HandSize : Nat := 7

/-- Go `GameSettings`. -/
structure GameSettings where
  maxRounds : Nat
  playingToPoints : Nat
  password : String
  maxPlayers : Nat
  cardPacks : List CardPack
deriving DecidableEq, Repr

/-- Embedding of `GameSettings.Validate`: the chain of range checks, in source order. -/
def GameSettings.Validate (gs : GameSettings) : Bool :=
  if gs.maxRounds < MinRounds then false
  else if gs.maxRounds > MaxRounds then false
  else if gs.playingToPoints < MinPlayingToPoints then false
  else if gs.playingToPoints > MaxPlayingToPoints then false
  else if gs.password.utf8ByteSize > MaxPasswordLength then false
  else if gs.maxPlayers < MinPlayers then false
  else if gs.maxPlayers > MaxPlayers then false
  else if gs.cardPacks.length < MinCardPacks then false
  else true

/-- The four lifecycle states. -/
inductive GameState where
  | inLobby
  | whiteCardsBeingSelected
  | czarJudgingCards
  | displayingWinningCard
deriving DecidableEq, Repr

/-- Go `Game`: join-order list, player map, czar and owner ids, round
counter, settings, current black card, deck, creation time and lifecycle
state.  The mutex is a concurrency artefact with no sequential content. -/
structure Game where
  id : Nat
  players : List Nat
  playersMap : List (Nat × Player)
  currentCardCzarId : Nat
  gameOwnerId : Nat
  currentRound : Nat
  settings : GameSettings
  currentBlackCard : Option BlackCard
  cardDeck : Option CardDeck
  creationTime : Nat
  gameState : GameState
deriving DecidableEq, Repr

/-- Embedding of `NewGame`: validates the settings, creates the host player, and builds
a lobby game containing only the host.  Fresh UUIDs and the creation time
are injected. -/
def NewGame (gameSettings : GameSettings) (hostPlayerName : String)
    (gameId hostId creationTime : Nat) : Except Unit Game :=
  if ¬ gameSettings.Validate then .error ()
  else
    match NewPlayer hostId hostPlayerName with
    | .error _ => .error ()
    | .ok hostPlayer =>
      .ok { id := gameId,
            players := [hostPlayer.id],
            playersMap := [(hostPlayer.id, hostPlayer)],
            currentCardCzarId := 0,
            gameOwnerId := hostPlayer.id,
            currentRound := 0,
            settings := gameSettings,
            currentBlackCard := none,
            cardDeck := none,
            creationTime := creationTime,
            gameState := .inLobby }

/-- Go `GameStateInfo`: the projection returned by `Game.StateInfo`.  Its
`players` entries are `Player` values with only id, name, points and
connectivity filled in (hand and current play are Go zero values). -/
structure GameStateInfo where
  id : Nat
  settings : GameSettings
  creationTime : Nat
  gameState : GameState
  players : List Player
  gameOwnerId : Nat
deriving DecidableEq, Repr

/-- Embedding of `Game.StateInfo`: per-player projection copying only id, name, points
and connectivity.  A Go nil-map-lookup panic (a join-order id missing from
the player map) is modelled as `none`. -/
def Game.StateInfo (g : Game) : Option GameStateInfo :=
  match (g.players.mapM (fun playerId =>
      (lookupA playerId g.playersMap).map (fun p =>
        ({ id := playerId, name := p.name, hand := [], currentPlay := none,
           connected := p.connected, points := p.points } : Player)))) with
  | none => none
  | some players =>
    some { id := g.id, settings := g.settings, creationTime := g.creationTime,
           gameState := g.gameState, players := players,
           gameOwnerId := g.gameOwnerId }

/-- The distinct error returns of `Game.AddPlayer`. -/
inductive AddPlayerErr where
  | gameFull
  | invalidName
  | playerMissingFromMap
  | duplicateName
deriving DecidableEq, Repr

/-- The duplicate-name loop of `Game.AddPlayer`: walks the join-order
list, failing if an id is missing from the map or if the name collides. -/
def addPlayerNameCheck (playersMap : List (Nat × Player)) (playerName : String) :
    List Nat → Option AddPlayerErr
  | [] => none
  | playerId :: rest =>
    match lookupA playerId playersMap with
    | none => some .playerMissingFromMap
    | some p =>
      if playerName = p.name then some .duplicateName
      else addPlayerNameCheck playersMap playerName rest

/-- Embedding of `Game.AddPlayer`: capacity check, `NewPlayer` validation, duplicate
name scan, then append to the join order and the player map. -/
def Game.AddPlayer (g : Game) (freshId : Nat) (playerName : String) :
    Game × Except AddPlayerErr Nat :=
  if g.players.length ≥ g.settings.maxPlayers then (g, .error .gameFull)
  else
    match NewPlayer freshId playerName with
    | .error _ => (g, .error .invalidName)
    | .ok player =>
      match addPlayerNameCheck g.playersMap playerName g.players with
      | some e => (g, .error e)
      | none =>
        ({ g with players := g.players ++ [player.id],
                  playersMap := insertA player.id player g.playersMap },
         .ok player.id)

/-- Go `PlayerRemovalResult`; `newGameOwner` stays the zero UUID when no
reassignment happened. -/
structure PlayerRemovalResult where
  newGameOwner : Nat
  playersLeft : Nat
deriving DecidableEq, Repr

/-- Embedding of `Game.RemovePlayer`: drops the player from map and join order; when
the owner left and players remain, a random remaining player (injected as
`pick`, used as `pick % playersLeft` to model `rand.Intn`) becomes the
owner. -/
def Game.RemovePlayer (g : Game) (playerToRemoveId : Nat) (pick : Nat) :
    Game × Except Unit PlayerRemovalResult :=
  if (lookupA playerToRemoveId g.playersMap).isNone then (g, .error ())
  else
    let playersMap := eraseA playerToRemoveId g.playersMap
    let players := g.players.filter (fun pid => pid ≠ playerToRemoveId)
    let playersLeft := players.length
    if playerToRemoveId = g.gameOwnerId ∧ playersLeft > 0 then
      let newOwner := players.getD (pick % playersLeft) 0
      ({ g with playersMap := playersMap, players := players,
                gameOwnerId := newOwner },
       .ok { newGameOwner := newOwner, playersLeft := playersLeft })
    else
      ({ g with playersMap := playersMap, players := players },
       .ok { newGameOwner := 0, playersLeft := playersLeft })

/-- Go `RoundInfo`: every player's dealt hand, the black card, the czar and
the round number. -/
structure RoundInfo where
  playerHands : List (Nat × List WhiteCard)
  currentBlackCard : Option BlackCard
  currentCardCzarId : Nat
  roundNumber : Nat
deriving DecidableEq, Repr

/-- The distinct error returns of `Game.StartGame`. -/
inductive StartGameErr where
  | wrongState
  | notEnoughPlayers
  | deckCreation (e : DeckErr)
  | blackCard
  | whiteCards
deriving DecidableEq, Repr

/-- Build a player's hand map (`map[int]*WhiteCard`) from the dealt
cards. -/
def handOfCards (cards : List WhiteCard) : List (Nat × WhiteCard) :=
  cards.foldl (fun h c => insertA c.id c h) []

/-- The dealing loop of `Game.StartGame`: for each player draw `HandSize`
white cards and replace the player's hand; on a draw failure the loop
stops, leaving earlier players dealt and later players untouched, exactly
as the Go `for … range` does. -/
def dealHands (deck : CardDeck) :
    List (Nat × Player) →
    CardDeck × List (Nat × Player) × List (Nat × List WhiteCard) × Option DeckErr
  | [] => (deck, [], [], none)
  | (pid, p) :: rest =>
    let r := deck.GetNewWhiteCards HandSize
    match r.2 with
    | none => (r.1, (pid, p) :: rest, [], some .exhausted)
    | some cards =>
      let p2 := { p with hand := handOfCards cards }
      let rr := dealHands r.1 rest
      (rr.1, (pid, p2) :: rr.2.1, (pid, cards) :: rr.2.2.1, rr.2.2.2)

/-- Embedding of `Game.StartGame`: state and player-count guards, deck construction,
black-card draw, then — before dealing — the state transition, black-card
assignment and round increment; finally the dealing loop.  Returns the
(possibly partially) updated game with the result. -/
def Game.StartGame (g : Game) : Game × Except StartGameErr RoundInfo :=
  if g.gameState ≠ .inLobby then (g, .error .wrongState)
  else if g.players.length < MinPlayers then (g, .error .notEnoughPlayers)
  else
    match AccumalateCardPacks g.settings.cardPacks with
    | .error e => (g, .error (.deckCreation e))
    | .ok deck =>
      let rb := deck.GetNewBlackCard
      match rb.2 with
      | none => ({ g with cardDeck := some rb.1 }, .error .blackCard)
      | some blackCard =>
        let g2 := { g with cardDeck := some rb.1,
                           currentBlackCard := some blackCard,
                           gameState := .whiteCardsBeingSelected,
                           currentRound := g.currentRound + 1 }
        let rd := dealHands rb.1 g2.playersMap
        let g3 := { g2 with cardDeck := some rd.1, playersMap := rd.2.1 }
        match rd.2.2.2 with
        | some _ => (g3, .error .whiteCards)
        | none =>
          (g3, .ok { playerHands := rd.2.2.1,
                     currentBlackCard := g3.currentBlackCard,
                     currentCardCzarId := g3.currentCardCzarId,
                     roundNumber := g3.currentRound })

/-- The distinct error returns of `Game.ChangeSettings`. -/
inductive ChangeSettingsErr where
  | wrongState
  | invalidSettings
deriving DecidableEq, Repr

/-- Embedding of `Game.ChangeSettings`: only in the lobby, only validated settings;
replaces the settings pointer as a whole. -/
def Game.ChangeSettings (g : Game) (newSettings : GameSettings) :
    Game × Option ChangeSettingsErr :=
  if g.gameState ≠ .inLobby then (g, some .wrongState)
  else if ¬ newSettings.Validate then (g, some .invalidSettings)
  else ({ g with settings := newSettings }, none)

/-! ## Game repository (`gameRepo`) -/

/-- Go `GameRepo`: the game map and the age map, mutated together under the
repo lock. -/
structure GameRepo where
  gameMap : List (Nat × Game)
  gameAgeMap : List (Nat × Nat)
deriving DecidableEq, Repr

/-- Embedding of `gameRepo.New`. -/
def GameRepo.New : GameRepo := { gameMap := [], gameAgeMap := [] }

/-- Embedding of `GameRepo.CreateGame`: delegates to `NewGame`; on failure nothing is
registered; on success the game is stored in both maps. -/
def GameRepo.CreateGame (gr : GameRepo) (gameSettings : GameSettings)
    (playerName : String) (gameId hostId creationTime : Nat) :
    GameRepo × Except Unit (Nat × Nat) :=
  match NewGame gameSettings playerName gameId hostId creationTime with
  | .error _ => (gr, .error ())
  | .ok game =>
    ({ gr with gameMap := insertA game.id game gr.gameMap,
               gameAgeMap := insertA game.id game.creationTime gr.gameAgeMap },
     .ok (game.id, game.gameOwnerId))

/-- Embedding of `GameRepo.RemoveGame`: deletes from both maps, failing when the game
is unknown. -/
def GameRepo.RemoveGame (gr : GameRepo) (gameId : Nat) :
    GameRepo × Option Unit :=
  if (lookupA gameId gr.gameMap).isNone then (gr, some ())
  else ({ gr with gameMap := eraseA gameId gr.gameMap,
                  gameAgeMap := eraseA gameId gr.gameAgeMap }, none)

/-- Embedding of `GameRepo.PlayerLeaveGame`: delegates to `Game.RemovePlayer` (the Go
code mutates the game in place through its pointer, modelled by writing
the updated game back); when no players remain the game is deleted from
both maps. -/
def GameRepo.PlayerLeaveGame (gr : GameRepo) (gameId playerId pick : Nat) :
    GameRepo × Except Unit PlayerRemovalResult :=
  match lookupA gameId gr.gameMap with
  | none => (gr, .error ())
  | some game =>
    match game.RemovePlayer playerId pick with
    | (_, .error _) => (gr, .error ())
    | (game2, .ok res) =>
      if res.playersLeft = 0 then
        ({ gr with gameMap := eraseA gameId gr.gameMap,
                   gameAgeMap := eraseA gameId gr.gameAgeMap }, .ok res)
      else
        ({ gr with gameMap := insertA gameId game2 gr.gameMap }, .ok res)

/-- The distinct error returns of `GameRepo.ChangeSettings`. -/
inductive RepoChangeSettingsErr where
  | invalidSettings
  | gameNotFound
deriving DecidableEq, Repr

/-- Embedding of `GameRepo.ChangeSettings`: validates the settings, finds the game and
replaces its settings — with no check of the game's lifecycle state. -/
def GameRepo.ChangeSettings (gr : GameRepo) (gameId : Nat)
    (settings : GameSettings) : GameRepo × Option RepoChangeSettingsErr :=
  if ¬ settings.Validate then (gr, some .invalidSettings)
  else
    match lookupA gameId gr.gameMap with
    | none => (gr, some .gameNotFound)
    | some game =>
      ({ gr with gameMap := insertA gameId { game with settings := settings } gr.gameMap },
       none)

/-! ## Operation traces -/

/-- A repository operation, for stating trace invariants. -/
inductive RepoOp where
  | createGame (gameSettings : GameSettings) (playerName : String)
      (gameId hostId creationTime : Nat)
  | removeGame (gameId : Nat)
  | playerLeaveGame (gameId playerId pick : Nat)
deriving Repr

/-- Apply one repository operation, discarding its result. -/
def GameRepo.step (gr : GameRepo) : RepoOp → GameRepo
  | .createGame gs n gid hid t => (gr.CreateGame gs n gid hid t).1
  | .removeGame gid => (gr.RemoveGame gid).1
  | .playerLeaveGame gid pid pick => (gr.PlayerLeaveGame gid pid pick).1

/-- Run a sequence of repository operations from a fresh repository. -/
def GameRepo.run (ops : List RepoOp) : GameRepo :=
  ops.foldl GameRepo.step GameRepo.New

/-- The repo invariant: the game map and the age map hold exactly the
same game identifiers. -/
def GameRepo.aligned (gr : GameRepo) : Prop :=
  keysA gr.gameMap = keysA gr.gameAgeMap

/-- A deck draw operation, for stating lifetime properties. -/
inductive DeckOp where
  | drawBlack
  | drawWhite (n : Nat)
deriving Repr

/-- Run a sequence of draws, collecting the identifiers of the cards
returned by the successful ones (in draw order). -/
def CardDeck.run (d : CardDeck) : List DeckOp → CardDeck × List Nat × List Nat
  | [] => (d, [], [])
  | .drawBlack :: rest =>
    let r := d.GetNewBlackCard
    let rr := r.1.run rest
    (rr.1, rr.2.1, (match r.2 with
      | some c => [c.id]
      | none => []) ++ rr.2.2)
  | .drawWhite n :: rest =>
    let r := d.GetNewWhiteCards n
    let rr := r.1.run rest
    (rr.1, (match r.2 with
      | some cs => cs.map (fun c => c.id)
      | none => []) ++ rr.2.1, rr.2.2)

/-! ## Concrete fixtures used by witnesses and counterexamples -/

/-- A white card with the given catalog index. -/
def wcF (n : Nat) : WhiteCard := { id := n, text := "white" }

/-- A black card with the given catalog index. -/
def bcF (n : Nat) : BlackCard := { id := n, text := "black", pick := 1 }

/-- A pack too small to deal three hands: 7 white cards, 1 black card. -/
def packSmall : CardPack :=
  { id := 0, name := "small", whiteCount := 7, blackCount := 1,
    cardDeck := { whiteCards := (List.range 7).map wcF, blackCards := [bcF 0] } }

/-- A pack large enough for a three-player deal: 22 whites, 2 blacks. -/
def packBig : CardPack :=
  { id := 1, name := "big", whiteCount := 22, blackCount := 2,
    cardDeck := { whiteCards := (List.range 22).map wcF,
                  blackCards := [bcF 0, bcF 1] } }

/-- Valid settings selecting the small pack. -/
def settingsSmall : GameSettings :=
  { maxRounds := 10, playingToPoints := 10, password := "", maxPlayers := 10,
    cardPacks := [packSmall] }

/-- Valid settings selecting the big pack. -/
def settingsBig : GameSettings :=
  { maxRounds := 10, playingToPoints := 10, password := "", maxPlayers := 10,
    cardPacks := [packBig] }

/-- Valid settings differing from the previous two. -/
def settingsAlt : GameSettings :=
  { maxRounds := 50, playingToPoints := 20, password := "", maxPlayers := 5,
    cardPacks := [packSmall] }

/-- A bare player fixture. -/
def playerF (n : Nat) (nm : String) : Player :=
  { id := n, name := nm, hand := [], currentPlay := none, connected := true,
    points := 0 }

/-- A three-player lobby game over the too-small pack. -/
def gSmall : Game :=
  { id := 100, players := [1, 2, 3],
    playersMap := [(1, playerF 1 "Dave"), (2, playerF 2 "Alice"),
                   (3, playerF 3 "Bobby")],
    currentCardCzarId := 0, gameOwnerId := 1, currentRound := 0,
    settings := settingsSmall, currentBlackCard := none, cardDeck := none,
    creationTime := 0, gameState := .inLobby }

/-- A three-player lobby game over the big pack. -/
def gBig : Game := { gSmall with settings := settingsBig }

/-- A game that has left the lobby. -/
def gStarted : Game := { gSmall with gameState := .czarJudgingCards }

/-- A repository holding the started game. -/
def grStarted : GameRepo :=
  { gameMap := [(100, gStarted)], gameAgeMap := [(100, 0)] }

/-- A player holding two cards and no current play. -/
def pTwoCards : Player :=
  { playerF 5 "Emily" with hand := [(0, wcF 0), (1, wcF 1)] }

/-- A lobby game with a single player. -/
def gLone : Game :=
  { gSmall with players := [1], playersMap := [(1, playerF 1 "Dave")] }

/-- A three-player lobby game whose settings select no packs. -/
def gNoPacks : Game :=
  { gSmall with settings := { settingsSmall with cardPacks := [] } }

/-! ## Association-list lemmas -/

theorem lookupA_insertA_self {α : Type} (k : Nat) (v : α) (l : List (Nat × α)) :
    lookupA k (insertA k v l) = some v := by
  induction l with
  | nil => simp [insertA, lookupA]
  | cons hd tl ih =>
    obtain ⟨k2, v2⟩ := hd
    by_cases hk : k2 = k
    · simp [insertA, hk, lookupA]
    · simp [insertA, hk, lookupA, ih]

theorem lookupA_isSome_iff_mem {α : Type} (k : Nat) (l : List (Nat × α)) :
    (lookupA k l).isSome ↔ k ∈ keysA l := by
  induction l with
  | nil => simp [lookupA, keysA]
  | cons hd tl ih =>
    obtain ⟨k2, v2⟩ := hd
    by_cases hk : k2 = k
    · simp [lookupA, hk, keysA]
    · simp [lookupA, hk, keysA, ih]
      intro heq
      exact absurd heq.symm hk

theorem keysA_insertA {α : Type} (k : Nat) (v : α) (l : List (Nat × α)) :
    keysA (insertA k v l) = if k ∈ keysA l then keysA l else keysA l ++ [k] := by
  induction l with
  | nil => simp [insertA, keysA]
  | cons hd tl ih =>
    obtain ⟨k2, v2⟩ := hd
    by_cases hk : k2 = k
    · simp [insertA, hk, keysA]
    · simp only [insertA, if_neg hk, keysA, List.map_cons] at ih ⊢
      rw [ih]
      by_cases hmem : k ∈ keysA tl
      · simp [keysA] at hmem
        simp [hmem, Ne.symm hk]
      · simp [keysA] at hmem
        simp [hmem, Ne.symm hk]

theorem keysA_eraseA {α : Type} (k : Nat) (l : List (Nat × α)) :
    keysA (eraseA k l) = (keysA l).filter (fun k2 => k2 ≠ k) := by
  induction l with
  | nil => simp [eraseA, keysA]
  | cons hd tl ih =>
    obtain ⟨k2, v2⟩ := hd
    by_cases hk : k2 = k
    · simp [eraseA, keysA, hk, List.filter] at ih ⊢
      exact ih
    · simp [eraseA, keysA, List.filter, hk] at ih ⊢
      exact ih

theorem insertA_of_not_mem {α : Type} (k : Nat) (v : α) (l : List (Nat × α))
    (h : k ∉ keysA l) : insertA k v l = l ++ [(k, v)] := by
  induction l with
  | nil => simp [insertA]
  | cons hd tl ih =>
    obtain ⟨k2, v2⟩ := hd
    rw [keysA, List.map_cons, List.mem_cons] at h
    push_neg at h
    rw [insertA, if_neg (fun he => h.1 he.symm), ih h.2]
    simp

/-! ## PlayCard validation-loop lemmas -/

theorem playCardCheck_eq_none_iff (hand : List (Nat × WhiteCard)) :
    ∀ (cs : List WhiteCard) (seen : List Nat),
    (∀ c ∈ cs, (lookupA c.id hand).isSome) →
    (playCardCheck hand cs seen = none ↔
      ((cs.map (fun c => c.id)).Nodup ∧ ∀ c ∈ cs, c.id ∉ seen)) := by
  intro cs
  induction cs with
  | nil => intro seen _; simp [playCardCheck]
  | cons card rest ih =>
    intro seen hin
    by_cases hs : card.id ∈ seen
    · simp only [playCardCheck, if_pos hs]
      constructor
      · intro h; exact absurd h (by simp)
      · rintro ⟨h1, h2⟩
        exact absurd hs (h2 card (by simp))
    · have hcard : (lookupA card.id hand).isSome := hin card (by simp)
      have hcard2 : ¬ (lookupA card.id hand).isNone := by
        simp [Option.isNone_iff_eq_none]
        simp [Option.isSome_iff_exists] at hcard
        obtain ⟨v, hv⟩ := hcard
        simp [hv]
      simp only [playCardCheck, if_neg hs, if_neg hcard2]
      rw [ih (card.id :: seen) (fun c hc => hin c (by simp [hc]))]
      constructor
      · rintro ⟨h1, h2⟩
        refine ⟨?_, ?_⟩
        · simp [List.nodup_cons, h1]
          intro x hx hid
          exact absurd (by simp [hid]) (h2 x hx)
        · intro c hc
          rcases List.mem_cons.mp hc with hc1 | hc2
          · subst hc1; exact hs
          · intro hcs
            exact absurd (by simp [hcs]) (h2 c hc2)
      · rintro ⟨h1, h2⟩
        simp [List.nodup_cons] at h1
        refine ⟨h1.2, ?_⟩
        intro c hc
        simp
        refine ⟨?_, ?_⟩
        · intro heq
          exact h1.1 c hc heq
        · exact h2 c (by simp [hc])

theorem playCardCheck_all_in_hand (hand : List (Nat × WhiteCard)) :
    ∀ (cs : List WhiteCard) (seen : List Nat),
    (∀ c ∈ cs, (lookupA c.id hand).isSome) →
    playCardCheck hand cs seen = none ∨
    playCardCheck hand cs seen = some PlayErr.duplicateInPlay := by
  intro cs
  induction cs with
  | nil => intro seen _; simp [playCardCheck]
  | cons card rest ih =>
    intro seen hin
    by_cases hs : card.id ∈ seen
    · simp [playCardCheck, hs]
    · have hcard : (lookupA card.id hand).isSome := hin card (by simp)
      have hcard2 : ¬ (lookupA card.id hand).isNone := by
        simp [Option.isNone_iff_eq_none]
        simp [Option.isSome_iff_exists] at hcard
        obtain ⟨v, hv⟩ := hcard
        simp [hv]
      simp only [playCardCheck, if_neg hs, if_neg hcard2]
      exact ih (card.id :: seen) (fun c hc => hin c (by simp [hc]))

theorem playCardCheck_missing (hand : List (Nat × WhiteCard)) :
    ∀ (cs : List WhiteCard) (seen : List Nat),
    (cs.map (fun c => c.id)).Nodup →
    (∀ c ∈ cs, c.id ∉ seen) →
    (∃ c ∈ cs, (lookupA c.id hand).isNone) →
    playCardCheck hand cs seen = some PlayErr.cardNotInHand := by
  intro cs
  induction cs with
  | nil => intro seen _ _ hex; simp at hex
  | cons card rest ih =>
    intro seen hnd hdis hex
    have hs : card.id ∉ seen := hdis card (by simp)
    by_cases hmiss : (lookupA card.id hand).isNone
    · simp only [playCardCheck, if_neg hs, if_pos hmiss]
    · simp only [playCardCheck, if_neg hs, if_neg hmiss]
      simp [List.nodup_cons] at hnd
      apply ih (card.id :: seen) hnd.2
      · intro c hc
        simp
        refine ⟨fun heq => hnd.1 c hc heq, hdis c (by simp [hc])⟩
      · rcases hex with ⟨c, hc, hcn⟩
        rcases List.mem_cons.mp hc with hc1 | hc2
        · subst hc1; exact absurd hcn hmiss
        · exact ⟨c, hc2, hcn⟩

/-! ## Claims about `Player.PlayCard` and `Player.FinaliseRound` -/

/-- The operation `AddCardToHand` never touches the current play. -/
theorem addCardToHand_preserves_currentPlay (q : Player) (c : WhiteCard) :
    ((q.AddCardToHand c).1).currentPlay = q.currentPlay := by
  unfold Player.AddCardToHand
  by_cases hh : q.hasCard c
  · simp [hh]
  · simp [hh]

/-- C9: whenever `Player.PlayCard` returns an error, the player is
completely unchanged — validation runs in full before any mutation, so the
hand and the current play are exactly as before the call. -/
theorem playCard_error_leaves_player_unchanged
    (p : Player) (cards : Option (List WhiteCard)) (e : PlayErr)
    (h : (p.PlayCard cards).2 = some e) : (p.PlayCard cards).1 = p := by
  unfold Player.PlayCard at *
  cases cards with
  | none => rfl
  | some cs =>
    by_cases hc : p.currentPlay = none
    · simp only [hc, ne_eq, not_true_eq_false, if_false] at h ⊢
      cases hpc : playCardCheck p.hand cs [] with
      | none => simp [hpc] at h
      | some e2 => simp [hpc]
    · simp [hc]

/-- Witness for C9: a play attempted while a play is already recorded
errors with `AlreadyPlayed` and leaves the player unchanged. -/
theorem playCard_error_leaves_player_unchanged_witness :
    (({ pTwoCards with currentPlay := some [] } : Player).PlayCard
        (some [wcF 0])).1 = { pTwoCards with currentPlay := some [] } :=
  playCard_error_leaves_player_unchanged
    { pTwoCards with currentPlay := some [] } (some [wcF 0])
    PlayErr.alreadyPlayed (by decide)

/-- C8: after a successful `PlayCard`, the hand is the original hand minus
the played cards and the play is recorded; `FinaliseRound` then clears
only the current play (hand and points untouched), and a repeated
`FinaliseRound` is a no-op. -/
theorem playCard_then_finaliseRound (p : Player) (cs : List WhiteCard)
    (h : (p.PlayCard (some cs)).2 = none) :
    (p.PlayCard (some cs)).1.hand = cs.foldl (fun h2 c => eraseA c.id h2) p.hand ∧
    (p.PlayCard (some cs)).1.currentPlay = some cs ∧
    (p.PlayCard (some cs)).1.FinaliseRound.hand = (p.PlayCard (some cs)).1.hand ∧
    (p.PlayCard (some cs)).1.FinaliseRound.currentPlay = none ∧
    (p.PlayCard (some cs)).1.FinaliseRound.points = (p.PlayCard (some cs)).1.points ∧
    (p.PlayCard (some cs)).1.FinaliseRound.FinaliseRound =
      (p.PlayCard (some cs)).1.FinaliseRound := by
  unfold Player.PlayCard at *
  by_cases hc : p.currentPlay = none
  · simp only [hc, ne_eq, not_true_eq_false, if_false] at h ⊢
    cases hpc : playCardCheck p.hand cs [] with
    | some e => simp [hpc] at h
    | none => simp [hpc, Player.FinaliseRound]
  · simp [hc] at h

/-- Witness for C8: a concrete successful play of one of two cards. -/
theorem playCard_then_finaliseRound_witness :
    (pTwoCards.PlayCard (some [wcF 0])).2 = none ∧
    (pTwoCards.PlayCard (some [wcF 0])).1.FinaliseRound.hand =
      (pTwoCards.PlayCard (some [wcF 0])).1.hand ∧
    (pTwoCards.PlayCard (some [wcF 0])).1.FinaliseRound.currentPlay = none :=
  ⟨by decide,
   (playCard_then_finaliseRound pTwoCards [wcF 0] (by decide)).2.2.1,
   (playCard_then_finaliseRound pTwoCards [wcF 0] (by decide)).2.2.2.1⟩

/-- C3 counterexample: the claim says `PlayCard` fails on empty input, but
only a nil slice is rejected — an empty non-nil submission succeeds and
records an empty play. -/
theorem playCard_empty_submission_succeeds :
    (pTwoCards.PlayCard (some [])).2 = none ∧
    (pTwoCards.PlayCard (some [])).1.currentPlay = some [] := by
  constructor
  · decide
  · decide

/-- C3 (amended): `PlayCard` fails on nil input (an empty non-nil
submission is accepted and records an empty play), fails with
`AlreadyPlayed` when a play exists, with `DuplicateInPlay` on a repeated
card id, with `CardNotInHand` when a card is missing from the hand; on
success the played cards leave the hand, the submission is recorded as the
current play, and later hand mutation leaves the recorded play intact. -/
theorem playCard_spec :
    (∀ p : Player, p.PlayCard none = (p, some PlayErr.nilCards)) ∧
    (∀ (p : Player) (cs cp : List WhiteCard), p.currentPlay = some cp →
      p.PlayCard (some cs) = (p, some PlayErr.alreadyPlayed)) ∧
    (∀ (p : Player) (cs : List WhiteCard), p.currentPlay = none →
      (∀ c ∈ cs, (lookupA c.id p.hand).isSome) →
      ¬ (cs.map (fun c => c.id)).Nodup →
      p.PlayCard (some cs) = (p, some PlayErr.duplicateInPlay)) ∧
    (∀ (p : Player) (cs : List WhiteCard), p.currentPlay = none →
      (cs.map (fun c => c.id)).Nodup →
      (∃ c ∈ cs, (lookupA c.id p.hand).isNone) →
      p.PlayCard (some cs) = (p, some PlayErr.cardNotInHand)) ∧
    (∀ (p : Player) (cs : List WhiteCard), (p.PlayCard (some cs)).2 = none →
      (p.PlayCard (some cs)).1.hand = cs.foldl (fun h2 c => eraseA c.id h2) p.hand ∧
      (p.PlayCard (some cs)).1.currentPlay = some cs ∧
      ∀ c2, (((p.PlayCard (some cs)).1.AddCardToHand c2).1).currentPlay = some cs) := by
  refine ⟨?_, ?_, ?_, ?_, ?_⟩
  · intro p; rfl
  · intro p cs cp hcp
    unfold Player.PlayCard
    simp [hcp]
  · intro p cs hcp hin hdup
    unfold Player.PlayCard
    simp only [hcp, ne_eq, not_true_eq_false, if_false]
    rcases playCardCheck_all_in_hand p.hand cs [] hin with hnone | hdupe
    · rw [playCardCheck_eq_none_iff p.hand cs [] hin] at hnone
      exact absurd hnone.1 hdup
    · rw [hdupe]
  · intro p cs hcp hnd hex
    unfold Player.PlayCard
    simp only [hcp, ne_eq, not_true_eq_false, if_false]
    rw [playCardCheck_missing p.hand cs [] hnd (by simp) hex]
  · intro p cs h
    unfold Player.PlayCard at *
    by_cases hc : p.currentPlay = none
    · simp only [hc, ne_eq, not_true_eq_false, if_false] at h ⊢
      cases hpc : playCardCheck p.hand cs [] with
      | some e => simp [hpc] at h
      | none =>
        refine ⟨by simp [hpc], by simp [hpc], ?_⟩
        intro c2
        simp only [hpc]
        rw [addCardToHand_preserves_currentPlay]
    · simp [hc] at h

/-- Witness for C3: the amended behaviours at concrete inputs — nil
rejected, re-submission rejected, duplicate rejected, missing card
rejected, and a successful play recorded. -/
theorem playCard_spec_witness :
    pTwoCards.PlayCard none = (pTwoCards, some PlayErr.nilCards) ∧
    ({ pTwoCards with currentPlay := some [wcF 0] } : Player).PlayCard
        (some [wcF 1]) =
      ({ pTwoCards with currentPlay := some [wcF 0] }, some PlayErr.alreadyPlayed) ∧
    pTwoCards.PlayCard (some [wcF 0, wcF 0]) =
      (pTwoCards, some PlayErr.duplicateInPlay) ∧
    pTwoCards.PlayCard (some [wcF 9]) =
      (pTwoCards, some PlayErr.cardNotInHand) ∧
    (pTwoCards.PlayCard (some [wcF 0])).1.currentPlay = some [wcF 0] :=
  ⟨playCard_spec.1 pTwoCards,
   playCard_spec.2.1 { pTwoCards with currentPlay := some [wcF 0] } [wcF 1]
     [wcF 0] (by decide),
   playCard_spec.2.2.1 pTwoCards [wcF 0, wcF 0] (by decide) (by decide)
     (by decide),
   playCard_spec.2.2.2.1 pTwoCards [wcF 9] (by decide) (by decide)
     ⟨wcF 9, by decide, by decide⟩,
   (playCard_spec.2.2.2.2 pTwoCards [wcF 0] (by decide)).2.1⟩

/-! ## Claims about settings changes -/

/-- C2 counterexample: the repository's `ChangeSettings` does not check
the lifecycle state — on a game that is judging cards it succeeds and
replaces the settings instead of failing with a wrong-state error. -/
theorem repo_changeSettings_ignores_state :
    gStarted.gameState ≠ GameState.inLobby ∧
    (grStarted.ChangeSettings 100 settingsAlt).2 = none ∧
    (lookupA 100 (grStarted.ChangeSettings 100 settingsAlt).1.gameMap).map
        (fun g => g.settings) = some settingsAlt := by
  refine ⟨by decide, by decide, by decide⟩

/-- C2 (amended): `Game.ChangeSettings` fails with a wrong-state error
outside the lobby, leaving the settings unchanged, and on success the new
settings have passed full validation and replace the old ones as a whole;
`GameRepo.ChangeSettings`, however, only validates the settings and
replaces them atomically for a game in any lifecycle state. -/
theorem changeSettings_spec :
    (∀ (g : Game) (s : GameSettings), g.gameState ≠ GameState.inLobby →
      g.ChangeSettings s = (g, some ChangeSettingsErr.wrongState)) ∧
    (∀ (g : Game) (s : GameSettings), (g.ChangeSettings s).2 = none →
      s.Validate = true ∧ (g.ChangeSettings s).1 = { g with settings := s }) ∧
    (∀ (gr : GameRepo) (gid : Nat) (s : GameSettings) (game : Game),
      s.Validate = true → lookupA gid gr.gameMap = some game →
      (gr.ChangeSettings gid s).2 = none ∧
      lookupA gid (gr.ChangeSettings gid s).1.gameMap =
        some { game with settings := s }) := by
  refine ⟨?_, ?_, ?_⟩
  · intro g s h
    unfold Game.ChangeSettings
    simp [h]
  · intro g s h
    unfold Game.ChangeSettings at *
    by_cases h1 : g.gameState ≠ GameState.inLobby
    · simp [h1] at h
    · simp only [h1, if_false] at h ⊢
      by_cases h2 : s.Validate
      · simp [h2]
      · simp [h2] at h
  · intro gr gid s game hv hg
    unfold GameRepo.ChangeSettings
    simp only [hv, not_true_eq_false, if_false, hg]
    exact ⟨by simp, by simp [lookupA_insertA_self]⟩

/-- Witness for C2 (amended): concrete wrong-state rejection, a concrete
successful validated replacement, and a concrete repository replacement. -/
theorem changeSettings_spec_witness :
    gStarted.ChangeSettings settingsAlt =
      (gStarted, some ChangeSettingsErr.wrongState) ∧
    (gSmall.ChangeSettings settingsAlt).1 = { gSmall with settings := settingsAlt } ∧
    lookupA 100 (grStarted.ChangeSettings 100 settingsAlt).1.gameMap =
      some { gStarted with settings := settingsAlt } :=
  ⟨changeSettings_spec.1 gStarted settingsAlt (by decide),
   (changeSettings_spec.2.1 gSmall settingsAlt (by decide)).2,
   (changeSettings_spec.2.2 grStarted 100 settingsAlt gStarted (by decide)
     (by decide)).2⟩

/-! ## Claim about `Game.AddPlayer` -/

/-- The duplicate-name scan finds a collision wherever it sits in the
join-order list, provided every listed id resolves in the player map. -/
theorem addPlayerNameCheck_finds_duplicate
    (pm : List (Nat × Player)) (nm : String) :
    ∀ l : List Nat, (∀ pid ∈ l, (lookupA pid pm).isSome) →
    (∃ pid ∈ l, ∃ p : Player, lookupA pid pm = some p ∧ p.name = nm) →
    addPlayerNameCheck pm nm l = some AddPlayerErr.duplicateName := by
  intro l
  induction l with
  | nil => intro _ hex; simp at hex
  | cons pid rest ih =>
    intro hwf hex
    have hsome : (lookupA pid pm).isSome := hwf pid (by simp)
    rw [Option.isSome_iff_exists] at hsome
    obtain ⟨p, hp⟩ := hsome
    unfold addPlayerNameCheck
    rw [hp]
    by_cases hname : nm = p.name
    · simp [hname]
    · simp only [if_neg hname]
      apply ih (fun pid2 h2 => hwf pid2 (by simp [h2]))
      rcases hex with ⟨pid2, hmem, q, hq, hqn⟩
      rcases List.mem_cons.mp hmem with h1 | h2
      · subst h1
        rw [hp] at hq
        cases hq
        exact absurd hqn.symm hname
      · exact ⟨pid2, h2, q, hq, hqn⟩

/-- C4: `AddPlayer` fails with the game-full error at or above capacity;
below capacity, a (well-formed-length) name equal to any existing player's
name fails with the duplicate-name error regardless of join order; on
success the fresh identifier is appended to the join order, the player is
inserted into the map, and that identifier is returned. -/
theorem addPlayer_spec :
    (∀ (g : Game) (i : Nat) (nm : String),
      g.players.length ≥ g.settings.maxPlayers →
      g.AddPlayer i nm = (g, Except.error AddPlayerErr.gameFull)) ∧
    (∀ (g : Game) (i : Nat) (nm : String),
      g.players.length < g.settings.maxPlayers →
      MinPlayerNameLength ≤ nm.utf8ByteSize →
      nm.utf8ByteSize ≤ MaxPlayerNameLength →
      (∀ pid ∈ g.players, (lookupA pid g.playersMap).isSome) →
      (∃ pid ∈ g.players, ∃ p : Player,
          lookupA pid g.playersMap = some p ∧ p.name = nm) →
      g.AddPlayer i nm = (g, Except.error AddPlayerErr.duplicateName)) ∧
    (∀ (g : Game) (i : Nat) (nm : String) (pid : Nat),
      (g.AddPlayer i nm).2 = Except.ok pid →
      pid = i ∧
      (g.AddPlayer i nm).1.players = g.players ++ [i] ∧
      ∃ player : Player, NewPlayer i nm = Except.ok player ∧
        (g.AddPlayer i nm).1.playersMap = insertA i player g.playersMap) := by
  refine ⟨?_, ?_, ?_⟩
  · intro g i nm h
    unfold Game.AddPlayer
    simp [h]
  · intro g i nm hlt hmin hmax hwf hex
    unfold Game.AddPlayer
    have hcap : ¬ g.players.length ≥ g.settings.maxPlayers := by omega
    simp only [ge_iff_le, if_neg (by omega : ¬ (g.settings.maxPlayers : Nat) ≤ g.players.length)]
    have hnp : NewPlayer i nm = Except.ok
        { id := i, name := nm, hand := [], currentPlay := none,
          connected := true, points := 0 } := by
      unfold NewPlayer
      rw [if_neg (by omega)]
    rw [hnp]
    rw [addPlayerNameCheck_finds_duplicate g.playersMap nm g.players hwf hex]
  · intro g i nm pid h
    unfold Game.AddPlayer at *
    by_cases hcap : g.players.length ≥ g.settings.maxPlayers
    · simp [hcap] at h
    · simp only [ge_iff_le] at hcap h ⊢
      rw [if_neg (by omega : ¬ (g.settings.maxPlayers : Nat) ≤ g.players.length)] at h ⊢
      cases hnp : NewPlayer i nm with
      | error e => simp [hnp] at h
      | ok player =>
        simp only [hnp] at h ⊢
        cases hnc : addPlayerNameCheck g.playersMap nm g.players with
        | some e => simp [hnc] at h
        | none =>
          simp only [hnc] at h ⊢
          have hpid : player.id = i := by
            unfold NewPlayer at hnp
            by_cases hn : nm.utf8ByteSize > MaxPlayerNameLength ∨
                nm.utf8ByteSize < MinPlayerNameLength
            · simp [hn] at hnp
            · simp [hn] at hnp
              rw [← hnp]
          simp at h
          refine ⟨by rw [← h, hpid], by simp [hpid], player, rfl, by simp [hpid]⟩

/-- Witness for C4: on the three-player lobby game, the capacity error at
a full game, the duplicate-name error for a second "Dave", and a concrete
successful insertion. -/
theorem addPlayer_spec_witness :
    ({ gSmall with settings := { settingsSmall with maxPlayers := 3 } } : Game).AddPlayer
        9 "Frank" =
      ({ gSmall with settings := { settingsSmall with maxPlayers := 3 } },
       Except.error AddPlayerErr.gameFull) ∧
    gSmall.AddPlayer 9 "Dave" = (gSmall, Except.error AddPlayerErr.duplicateName) ∧
    (gSmall.AddPlayer 9 "Frank").1.players = gSmall.players ++ [9] :=
  ⟨addPlayer_spec.1 { gSmall with settings := { settingsSmall with maxPlayers := 3 } }
      9 "Frank" (by decide),
   addPlayer_spec.2.1 gSmall 9 "Dave" (by decide) (by decide) (by decide)
     (by decide) ⟨1, by decide, playerF 1 "Dave", by decide, by decide⟩,
   (addPlayer_spec.2.2 gSmall 9 "Frank" 9 rfl).2.1⟩

/-! ## Claim about `Game.StateInfo` -/

/-- Public (broadcast-safe) equality of players: id, name, points and
connectivity agree; hands and current plays are unconstrained. -/
def playerPubEq (p q : Player) : Bool :=
  p.id == q.id && p.name == q.name && p.points == q.points &&
    p.connected == q.connected

/-- Pointwise public equality of two player maps. -/
def mapsPubEq : List (Nat × Player) → List (Nat × Player) → Bool
  | [], [] => true
  | (k1, p) :: r1, (k2, q) :: r2 => k1 == k2 && playerPubEq p q && mapsPubEq r1 r2
  | _, _ => false

/-- Looking up publicly-equal maps yields projections that agree. -/
theorem lookupA_mapsPubEq (m1 m2 : List (Nat × Player))
    (h : mapsPubEq m1 m2 = true) (k : Nat) :
    (lookupA k m1).map (fun p => (p.name, p.points, p.connected)) =
    (lookupA k m2).map (fun p => (p.name, p.points, p.connected)) := by
  induction m1 generalizing m2 with
  | nil => cases m2 with
    | nil => rfl
    | cons hd tl => simp [mapsPubEq] at h
  | cons hd tl ih =>
    obtain ⟨k1, p⟩ := hd
    cases m2 with
    | nil => simp [mapsPubEq] at h
    | cons hd2 tl2 =>
      obtain ⟨k2, q⟩ := hd2
      simp only [mapsPubEq, Bool.and_eq_true, beq_iff_eq] at h
      obtain ⟨⟨hk, hpq⟩, hrest⟩ := h
      subst hk
      simp only [playerPubEq, Bool.and_eq_true, beq_iff_eq] at hpq
      by_cases hkk : k1 = k
      · simp [lookupA, hkk, hpq.1.1.2, hpq.1.2, hpq.2]
      · simp only [lookupA, if_neg hkk]
        exact ih tl2 hrest

/-- C10: `StateInfo` never reads a player's hand or current play — two
games identical except for those private fields produce identical
`StateInfo` projections, so broadcasting the projection leaks no cards. -/
theorem stateInfo_independent_of_hands (g1 g2 : Game)
    (hid : g1.id = g2.id) (hpl : g1.players = g2.players)
    (_hcz : g1.currentCardCzarId = g2.currentCardCzarId)
    (how : g1.gameOwnerId = g2.gameOwnerId)
    (_hrd : g1.currentRound = g2.currentRound)
    (hst : g1.settings = g2.settings)
    (_hbc : g1.currentBlackCard = g2.currentBlackCard)
    (_hdk : g1.cardDeck = g2.cardDeck)
    (hct : g1.creationTime = g2.creationTime)
    (hgs : g1.gameState = g2.gameState)
    (hpm : mapsPubEq g1.playersMap g2.playersMap = true) :
    g1.StateInfo = g2.StateInfo := by
  unfold Game.StateInfo
  have hfun : ∀ pid : Nat,
      (lookupA pid g1.playersMap).map (fun p =>
        ({ id := pid, name := p.name, hand := [], currentPlay := none,
           connected := p.connected, points := p.points } : Player)) =
      (lookupA pid g2.playersMap).map (fun p =>
        ({ id := pid, name := p.name, hand := [], currentPlay := none,
           connected := p.connected, points := p.points } : Player)) := by
    intro pid
    have htr := lookupA_mapsPubEq g1.playersMap g2.playersMap hpm pid
    cases h1 : lookupA pid g1.playersMap with
    | none =>
      cases h2 : lookupA pid g2.playersMap with
      | none => rfl
      | some q => rw [h1, h2] at htr; simp at htr
    | some p =>
      cases h2 : lookupA pid g2.playersMap with
      | none => rw [h1, h2] at htr; simp at htr
      | some q =>
        rw [h1, h2] at htr
        simp at htr ⊢
        simp [htr.1, htr.2.1, htr.2.2]
  rw [hid, hpl, hst, hct, hgs, how]
  have hmapm : (g2.players.mapM (fun playerId =>
      (lookupA playerId g1.playersMap).map (fun p =>
        ({ id := playerId, name := p.name, hand := [], currentPlay := none,
           connected := p.connected, points := p.points } : Player)))) =
      (g2.players.mapM (fun playerId =>
      (lookupA playerId g2.playersMap).map (fun p =>
        ({ id := playerId, name := p.name, hand := [], currentPlay := none,
           connected := p.connected, points := p.points } : Player)))) := by
    have : (fun playerId => (lookupA playerId g1.playersMap).map (fun p =>
        ({ id := playerId, name := p.name, hand := [], currentPlay := none,
           connected := p.connected, points := p.points } : Player))) =
        (fun playerId => (lookupA playerId g2.playersMap).map (fun p =>
        ({ id := playerId, name := p.name, hand := [], currentPlay := none,
           connected := p.connected, points := p.points } : Player))) :=
      funext hfun
    rw [this]
  rw [hmapm]

/-- Witness for C10: two concrete games differing only in one player's
hand and current play have equal `StateInfo`. -/
theorem stateInfo_independent_of_hands_witness :
    ({ gSmall with playersMap :=
        [(1, { id := 1, name := "Dave", hand := [(0, wcF 0)],
               currentPlay := some [wcF 3], connected := true, points := 0 }),
         (2, playerF 2 "Alice"), (3, playerF 3 "Bobby")] } : Game).StateInfo =
    gSmall.StateInfo :=
  stateInfo_independent_of_hands _ gSmall rfl rfl rfl rfl rfl rfl rfl rfl rfl
    rfl (by decide)

/-! ## Claim about `Game.StartGame` atomicity (C1) -/

/-- C1 (code bug): on the three-player lobby game over a 7-white-card
pack, `StartGame` fails while dealing the second hand, yet the game has
advanced: the state is no longer `InLobby`, the round counter moved from 0
to 1, the first player's hand was replaced with 7 cards, and the second
player's hand was not dealt — the deal is not all-or-nothing and the
failure leaves the game half-started. -/
theorem startGame_deal_failure_leaves_advanced_state :
    gSmall.gameState = GameState.inLobby ∧
    MinPlayers ≤ gSmall.players.length ∧
    gSmall.currentRound = 0 ∧
    (gSmall.StartGame).2 = Except.error StartGameErr.whiteCards ∧
    (gSmall.StartGame).1.gameState = GameState.whiteCardsBeingSelected ∧
    (gSmall.StartGame).1.currentRound = 1 ∧
    (lookupA 1 (gSmall.StartGame).1.playersMap).map (fun p => p.hand.length) =
      some 7 ∧
    (lookupA 2 (gSmall.StartGame).1.playersMap).map (fun p => p.hand.length) =
      some 0 := by
  refine ⟨by decide, by decide, by decide, ?_, by decide, by decide, by decide,
    by decide⟩
  rfl

/-! ## Claim about the repository invariant (C5) -/

/-- Inserting the same key into two key-aligned association lists keeps
them key-aligned. -/
theorem aligned_insertA {α β : Type} (k : Nat) (v : α) (w : β)
    (l1 : List (Nat × α)) (l2 : List (Nat × β)) (h : keysA l1 = keysA l2) :
    keysA (insertA k v l1) = keysA (insertA k w l2) := by
  rw [keysA_insertA, keysA_insertA, h]

/-- Deleting the same key from two key-aligned association lists keeps
them key-aligned. -/
theorem aligned_eraseA {α β : Type} (k : Nat)
    (l1 : List (Nat × α)) (l2 : List (Nat × β)) (h : keysA l1 = keysA l2) :
    keysA (eraseA k l1) = keysA (eraseA k l2) := by
  rw [keysA_eraseA, keysA_eraseA, h]

/-- One repository operation preserves the map/age-map key alignment. -/
theorem GameRepo.step_aligned (gr : GameRepo) (op : RepoOp)
    (h : gr.aligned) : (gr.step op).aligned := by
  cases op with
  | createGame gs nm gid hid t =>
    simp only [GameRepo.step, GameRepo.CreateGame]
    split
    · exact h
    · exact aligned_insertA _ _ _ _ _ h
  | removeGame gid =>
    simp only [GameRepo.step, GameRepo.RemoveGame]
    split
    · exact h
    · exact aligned_eraseA _ _ _ h
  | playerLeaveGame gid pid pick =>
    simp only [GameRepo.step, GameRepo.PlayerLeaveGame]
    split
    · exact h
    next game heq =>
      split
      · exact h
      next game2 res heq2 =>
        split
        · exact aligned_eraseA _ _ _ h
        · unfold GameRepo.aligned at *
          simp only
          rw [keysA_insertA]
          have hmem : gid ∈ keysA gr.gameMap := by
            rw [← lookupA_isSome_iff_mem, heq]
            rfl
          rw [if_pos hmem]
          exact h

/-- C5: starting from a fresh repository, after any sequence of
`CreateGame` / `RemoveGame` / `PlayerLeaveGame` operations the game map
and the age map hold exactly the same game identifiers (so the property
holds after every operation of any run, each prefix being itself a run);
moreover a failing `CreateGame` registers nothing. -/
theorem gameRepo_maps_stay_aligned :
    (∀ ops : List RepoOp, (GameRepo.run ops).aligned) ∧
    (∀ (gr : GameRepo) (gs : GameSettings) (nm : String) (gid hid t : Nat),
      (gr.CreateGame gs nm gid hid t).2 = Except.error () →
      (gr.CreateGame gs nm gid hid t).1 = gr) := by
  constructor
  · intro ops
    have hgen : ∀ (l : List RepoOp) (gr : GameRepo), gr.aligned →
        (l.foldl GameRepo.step gr).aligned := by
      intro l
      induction l with
      | nil => intro gr h; exact h
      | cons op rest ih =>
        intro gr h
        exact ih (gr.step op) (gr.step_aligned op h)
    exact hgen ops GameRepo.New rfl
  · intro gr gs nm gid hid t h
    unfold GameRepo.CreateGame at *
    cases hng : NewGame gs nm gid hid t with
    | error e => simp [hng]
    | ok game => simp [hng] at h

/-- Witness for C5: a concrete run (create, player leaves, create failing
on an invalid name) stays aligned, and the failing create changes
nothing. -/
theorem gameRepo_maps_stay_aligned_witness :
    (GameRepo.run
      [RepoOp.createGame settingsSmall "Dave" 50 51 7,
       RepoOp.playerLeaveGame 50 51 0,
       RepoOp.createGame settingsSmall "x" 60 61 8]).aligned ∧
    (GameRepo.New.CreateGame settingsSmall "x" 60 61 8).1 = GameRepo.New :=
  ⟨gameRepo_maps_stay_aligned.1 _,
   gameRepo_maps_stay_aligned.2 GameRepo.New settingsSmall "x" 60 61 8 rfl⟩

/-! ## Claim about deck draws (C7) -/

theorem GetNewBlackCard_of_nil (d : CardDeck) (h : d.blackCards = []) :
    d.GetNewBlackCard = (d, none) := by
  unfold CardDeck.GetNewBlackCard
  rw [h]

theorem GetNewBlackCard_of_cons (d : CardDeck) (c : BlackCard)
    (rest : List BlackCard) (h : d.blackCards = c :: rest) :
    d.GetNewBlackCard = ({ d with blackCards := rest }, some c) := by
  unfold CardDeck.GetNewBlackCard
  rw [h]

theorem GetNewWhiteCards_of_lt (d : CardDeck) (n : Nat)
    (h : d.whiteCards.length < n) : d.GetNewWhiteCards n = (d, none) := by
  unfold CardDeck.GetNewWhiteCards
  rw [if_pos h]

theorem GetNewWhiteCards_of_ge (d : CardDeck) (n : Nat)
    (h : ¬ d.whiteCards.length < n) :
    d.GetNewWhiteCards n =
      ({ d with whiteCards := d.whiteCards.drop n }, some (d.whiteCards.take n)) := by
  unfold CardDeck.GetNewWhiteCards
  rw [if_neg h]

/-- Over any draw trace, the drawn white ids followed by the remaining
white ids are exactly the initial white ids, and likewise for black. -/
theorem CardDeck.run_partition : ∀ (ops : List DeckOp) (d : CardDeck),
    (d.run ops).2.1 ++ ((d.run ops).1.whiteCards.map (fun c => c.id)) =
      d.whiteCards.map (fun c => c.id) ∧
    (d.run ops).2.2 ++ ((d.run ops).1.blackCards.map (fun c => c.id)) =
      d.blackCards.map (fun c => c.id) := by
  intro ops
  induction ops with
  | nil => intro d; simp [CardDeck.run]
  | cons op rest ih =>
    intro d
    cases op with
    | drawBlack =>
      cases hb : d.blackCards with
      | nil =>
        simp only [CardDeck.run, GetNewBlackCard_of_nil d hb]
        obtain ⟨ih1, ih2⟩ := ih d
        rw [hb] at ih2
        exact ⟨ih1, by simpa using ih2⟩
      | cons c cr =>
        simp only [CardDeck.run, GetNewBlackCard_of_cons d c cr hb]
        obtain ⟨ih1, ih2⟩ := ih { d with blackCards := cr }
        refine ⟨ih1, ?_⟩
        simp only [List.map_cons, List.cons_append, List.nil_append,
          List.append_assoc] at ih2 ⊢
        rw [ih2]
    | drawWhite n =>
      by_cases hw : d.whiteCards.length < n
      · simp only [CardDeck.run, GetNewWhiteCards_of_lt d n hw]
        obtain ⟨ih1, ih2⟩ := ih d
        exact ⟨by simp [ih1], ih2⟩
      · simp only [CardDeck.run, GetNewWhiteCards_of_ge d n hw]
        obtain ⟨ih1, ih2⟩ := ih { d with whiteCards := d.whiteCards.drop n }
        refine ⟨?_, ih2⟩
        rw [List.append_assoc, ih1]
        simp only
        rw [← List.map_append, List.take_append_drop]

/-- The deduplicated white pool has pairwise-distinct ids, none of them in
the seen set. -/
theorem dedupWhite_nodup : ∀ (l : List WhiteCard) (seen : List Nat),
    ((dedupWhite l seen).map (fun c => c.id)).Nodup ∧
    ∀ c ∈ dedupWhite l seen, c.id ∉ seen := by
  intro l
  induction l with
  | nil => intro seen; simp [dedupWhite]
  | cons c rest ih =>
    intro seen
    by_cases hs : c.id ∈ seen
    · simpa [dedupWhite, hs] using ih seen
    · obtain ⟨ih1, ih2⟩ := ih (c.id :: seen)
      simp only [dedupWhite, if_neg hs, List.map_cons, List.nodup_cons]
      refine ⟨⟨?_, ih1⟩, ?_⟩
      · intro hmem
        rw [List.mem_map] at hmem
        obtain ⟨c2, hc2, hcid⟩ := hmem
        exact ih2 c2 hc2 (by rw [hcid]; simp)
      · intro c2 hc2
        rcases List.mem_cons.mp hc2 with h1 | h2
        · subst h1; exact hs
        · intro hin
          exact ih2 c2 h2 (by simp [hin])

/-- The deduplicated black pool has pairwise-distinct ids, none of them in
the seen set. -/
theorem dedupBlack_nodup : ∀ (l : List BlackCard) (seen : List Nat),
    ((dedupBlack l seen).map (fun c => c.id)).Nodup ∧
    ∀ c ∈ dedupBlack l seen, c.id ∉ seen := by
  intro l
  induction l with
  | nil => intro seen; simp [dedupBlack]
  | cons c rest ih =>
    intro seen
    by_cases hs : c.id ∈ seen
    · simpa [dedupBlack, hs] using ih seen
    · obtain ⟨ih1, ih2⟩ := ih (c.id :: seen)
      simp only [dedupBlack, if_neg hs, List.map_cons, List.nodup_cons]
      refine ⟨⟨?_, ih1⟩, ?_⟩
      · intro hmem
        rw [List.mem_map] at hmem
        obtain ⟨c2, hc2, hcid⟩ := hmem
        exact ih2 c2 hc2 (by rw [hcid]; simp)
      · intro c2 hc2
        rcases List.mem_cons.mp hc2 with h1 | h2
        · subst h1; exact hs
        · intro hin
          exact ih2 c2 h2 (by simp [hin])

/-- Deduplication never lengthens a list. -/
theorem dedupWhite_length_le : ∀ (l : List WhiteCard) (seen : List Nat),
    (dedupWhite l seen).length ≤ l.length := by
  intro l
  induction l with
  | nil => intro seen; simp [dedupWhite]
  | cons c rest ih =>
    intro seen
    by_cases hs : c.id ∈ seen
    · simp only [dedupWhite, if_pos hs, List.length_cons]
      exact Nat.le_succ_of_le (ih seen)
    · simp only [dedupWhite, if_neg hs, List.length_cons]
      exact Nat.succ_le_succ (ih (c.id :: seen))

/-- Deduplication never lengthens a list. -/
theorem dedupBlack_length_le : ∀ (l : List BlackCard) (seen : List Nat),
    (dedupBlack l seen).length ≤ l.length := by
  intro l
  induction l with
  | nil => intro seen; simp [dedupBlack]
  | cons c rest ih =>
    intro seen
    by_cases hs : c.id ∈ seen
    · simp only [dedupBlack, if_pos hs, List.length_cons]
      exact Nat.le_succ_of_le (ih seen)
    · simp only [dedupBlack, if_neg hs, List.length_cons]
      exact Nat.succ_le_succ (ih (c.id :: seen))

/-- The merged white pool length is the sum of the packs' contributions. -/
theorem foldr_append_white_length (decks : List CardDeck) :
    (decks.foldr (fun d acc => d.whiteCards ++ acc) []).length =
      (decks.map (fun d => d.whiteCards.length)).sum := by
  induction decks with
  | nil => rfl
  | cons d rest ih => simp [ih]

/-- The merged black pool length is the sum of the packs' contributions. -/
theorem foldr_append_black_length (decks : List CardDeck) :
    (decks.foldr (fun d acc => d.blackCards ++ acc) []).length =
      (decks.map (fun d => d.blackCards.length)).sum := by
  induction decks with
  | nil => rfl
  | cons d rest ih => simp [ih]

/-- C7: for a deck built from packs contributing W white and B black
cards in total, over any draw trace at most W white-card ids and at most
B black-card ids are returned by successful draws, all returned ids are
pairwise distinct per pool, and a white draw that cannot be served in full
fails and removes nothing. -/
theorem deck_draws_bounded_and_distinct :
    (∀ (packs : List CardPack) (deck : CardDeck) (ops : List DeckOp),
      AccumalateCardPacks packs = Except.ok deck →
      ((deck.run ops).2.1.length ≤
          (packs.map (fun p => p.cardDeck.whiteCards.length)).sum ∧
       (deck.run ops).2.2.length ≤
          (packs.map (fun p => p.cardDeck.blackCards.length)).sum ∧
       (deck.run ops).2.1.Nodup ∧ (deck.run ops).2.2.Nodup)) ∧
    (∀ (d : CardDeck) (n : Nat), d.whiteCards.length < n →
      d.GetNewWhiteCards n = (d, none)) := by
  constructor
  · intro packs deck ops hacc
    have hdeck : deck = AccumalateDecks (packs.map (fun p => p.cardDeck)) := by
      unfold AccumalateCardPacks at hacc
      cases packs with
      | nil => simp at hacc
      | cons p rest => simp at hacc; exact hacc.symm
    obtain ⟨hw, hb⟩ := CardDeck.run_partition ops deck
    have hwids : (deck.whiteCards.map (fun c => c.id)).Nodup := by
      rw [hdeck]
      exact (dedupWhite_nodup _ []).1
    have hbids : (deck.blackCards.map (fun c => c.id)).Nodup := by
      rw [hdeck]
      exact (dedupBlack_nodup _ []).1
    refine ⟨?_, ?_, ?_, ?_⟩
    · have h1 : (deck.run ops).2.1.length ≤ deck.whiteCards.length := by
        have := congrArg List.length hw
        simp at this
        omega
      refine le_trans h1 ?_
      rw [hdeck]
      unfold AccumalateDecks
      simp only
      refine le_trans (dedupWhite_length_le _ []) ?_
      rw [foldr_append_white_length, List.map_map]
      apply le_of_eq
      rfl
    · have h1 : (deck.run ops).2.2.length ≤ deck.blackCards.length := by
        have := congrArg List.length hb
        simp at this
        omega
      refine le_trans h1 ?_
      rw [hdeck]
      unfold AccumalateDecks
      simp only
      refine le_trans (dedupBlack_length_le _ []) ?_
      rw [foldr_append_black_length, List.map_map]
      apply le_of_eq
      rfl
    · rw [← hw] at hwids
      exact (List.nodup_append.mp hwids).1
    · rw [← hb] at hbids
      exact (List.nodup_append.mp hbids).1
  · intro d n h
    exact GetNewWhiteCards_of_lt d n h

/-- Witness for C7: a concrete trace over the small pack's deck — a full
hand, a failing over-draw, a black draw — stays within bounds and
distinct, and the failing over-draw removes nothing. -/
theorem deck_draws_bounded_and_distinct_witness :
    ((packSmall.cardDeck.run
        [DeckOp.drawWhite 5, DeckOp.drawWhite 3, DeckOp.drawBlack]).2.1.length ≤
      ([packSmall].map (fun p => p.cardDeck.whiteCards.length)).sum ∧
     (packSmall.cardDeck.run
        [DeckOp.drawWhite 5, DeckOp.drawWhite 3, DeckOp.drawBlack]).2.1.Nodup) ∧
    ({ whiteCards := [wcF 0], blackCards := [] } : CardDeck).GetNewWhiteCards 2 =
      ({ whiteCards := [wcF 0], blackCards := [] }, none) :=
  ⟨⟨((deck_draws_bounded_and_distinct.1 [packSmall] packSmall.cardDeck
      [DeckOp.drawWhite 5, DeckOp.drawWhite 3, DeckOp.drawBlack] rfl)).1,
    ((deck_draws_bounded_and_distinct.1 [packSmall] packSmall.cardDeck
      [DeckOp.drawWhite 5, DeckOp.drawWhite 3, DeckOp.drawBlack] rfl)).2.2.1⟩,
   deck_draws_bounded_and_distinct.2 { whiteCards := [wcF 0], blackCards := [] } 2
     (by decide)⟩

/-! ## Claim about `Game.StartGame` behaviour (C6) -/

/-- Folding Go-map inserts of cards with fresh distinct ids appends each
binding. -/
theorem foldl_insertA_keys : ∀ (cards : List WhiteCard) (acc : List (Nat × WhiteCard)),
    (∀ c ∈ cards, c.id ∉ keysA acc) → (cards.map (fun c => c.id)).Nodup →
    keysA (cards.foldl (fun h c => insertA c.id c h) acc) =
      keysA acc ++ cards.map (fun c => c.id) := by
  intro cards
  induction cards with
  | nil => intro acc _ _; simp
  | cons c rest ih =>
    intro acc hfresh hnd
    simp only [List.foldl_cons]
    have hc : c.id ∉ keysA acc := hfresh c (by simp)
    have hkeys : keysA (insertA c.id c acc) = keysA acc ++ [c.id] := by
      rw [keysA_insertA, if_neg hc]
    simp only [List.map_cons, List.nodup_cons] at hnd
    rw [ih (insertA c.id c acc) ?_ hnd.2]
    · rw [hkeys]
      simp
    · intro c2 hc2
      rw [hkeys]
      simp only [List.mem_append, List.mem_singleton]
      rintro (h1 | h2)
      · exact hfresh c2 (by simp [hc2]) h1
      · exact hnd.1 (h2 ▸ List.mem_map_of_mem (fun c3 => c3.id) hc2)

/-- A hand built from cards with pairwise-distinct ids has exactly those
ids as keys. -/
theorem handOfCards_keys (cards : List WhiteCard)
    (hnd : (cards.map (fun c => c.id)).Nodup) :
    keysA (handOfCards cards) = cards.map (fun c => c.id) := by
  unfold handOfCards
  have := foldl_insertA_keys cards [] (by simp [keysA]) hnd
  simpa using this

/-- On a successful deal from a duplicate-free pool, every player in the
resulting map holds exactly `HandSize` cards with distinct ids. -/
theorem dealHands_ok : ∀ (pm : List (Nat × Player)) (deck : CardDeck),
    (dealHands deck pm).2.2.2 = none →
    (deck.whiteCards.map (fun c => c.id)).Nodup →
    ∀ (pid : Nat) (p : Player), (pid, p) ∈ (dealHands deck pm).2.1 →
      p.hand.length = HandSize ∧ (keysA p.hand).Nodup := by
  intro pm
  induction pm with
  | nil => intro deck _ _ pid p hmem; simp [dealHands] at hmem
  | cons hd rest ih =>
    obtain ⟨pid0, p0⟩ := hd
    intro deck herr hnd pid p hmem
    by_cases hw : deck.whiteCards.length < HandSize
    · simp only [dealHands, GetNewWhiteCards_of_lt deck HandSize hw] at herr
      simp at herr
    · simp only [dealHands, GetNewWhiteCards_of_ge deck HandSize hw] at herr hmem
      have htake : ((deck.whiteCards.take HandSize).map (fun c => c.id)).Nodup := by
        rw [List.map_take]
        exact (List.take_sublist HandSize _).nodup hnd
      have hdrop : (((deck.whiteCards.drop HandSize)).map (fun c => c.id)).Nodup := by
        rw [List.map_drop]
        exact (List.drop_sublist HandSize _).nodup hnd
      rcases List.mem_cons.mp hmem with h1 | h2
      · have hp : p = { p0 with hand := handOfCards (deck.whiteCards.take HandSize) } := by
          exact congrArg Prod.snd h1
        subst hp
        have hkeys := handOfCards_keys (deck.whiteCards.take HandSize) htake
        constructor
        · have hlen : (keysA (handOfCards (deck.whiteCards.take HandSize))).length =
              (deck.whiteCards.take HandSize).length := by
            rw [hkeys, List.length_map]
          rw [keysA, List.length_map] at hlen
          simp only
          rw [hlen, List.length_take]
          omega
        · simp only
          rw [hkeys]
          exact htake
      · exact ih { whiteCards := deck.whiteCards.drop HandSize,
                   blackCards := deck.blackCards } herr hdrop pid p h2

/-- A deck built by `AccumalateCardPacks` has duplicate-free pools. -/
theorem AccumalateCardPacks_ok_nodup (packs : List CardPack) (deck : CardDeck)
    (h : AccumalateCardPacks packs = Except.ok deck) :
    (deck.whiteCards.map (fun c => c.id)).Nodup ∧
    (deck.blackCards.map (fun c => c.id)).Nodup := by
  unfold AccumalateCardPacks at h
  cases packs with
  | nil => simp at h
  | cons p rest =>
    simp at h
    rw [← h]
    exact ⟨(dedupWhite_nodup _ []).1, (dedupBlack_nodup _ []).1⟩

/-- C6: `StartGame` fails with the wrong-state error outside the lobby,
with the not-enough-players error below `MinPlayers` (3), and propagates
the empty-selection deck failure; on success the game is in
`SelectingWhiteCards`, the current black card is non-nil, every player
holds exactly `HandSize` (7) white cards with pairwise-distinct ids, and
an immediately repeated `StartGame` fails with the wrong-state error. -/
theorem startGame_spec :
    (∀ g : Game, g.gameState ≠ GameState.inLobby →
      g.StartGame = (g, Except.error StartGameErr.wrongState)) ∧
    (∀ g : Game, g.gameState = GameState.inLobby →
      g.players.length < MinPlayers →
      g.StartGame = (g, Except.error StartGameErr.notEnoughPlayers)) ∧
    (∀ g : Game, g.gameState = GameState.inLobby →
      MinPlayers ≤ g.players.length → g.settings.cardPacks = [] →
      g.StartGame =
        (g, Except.error (StartGameErr.deckCreation DeckErr.emptySelection))) ∧
    (∀ g : Game, ((g.StartGame).2).isOk = true →
      (g.StartGame).1.gameState = GameState.whiteCardsBeingSelected ∧
      (g.StartGame).1.currentBlackCard.isSome = true ∧
      (∀ (pid : Nat) (p : Player), (pid, p) ∈ (g.StartGame).1.playersMap →
        p.hand.length = HandSize ∧ (keysA p.hand).Nodup) ∧
      ((g.StartGame).1.StartGame).2 = Except.error StartGameErr.wrongState) := by
  refine ⟨?_, ?_, ?_, ?_⟩
  · intro g h
    unfold Game.StartGame
    rw [if_pos h]
  · intro g h1 h2
    unfold Game.StartGame
    rw [if_neg (by simp [h1]), if_pos h2]
  · intro g h1 h2 h3
    unfold Game.StartGame
    rw [if_neg (by simp [h1]), if_neg (by omega)]
    simp only [h3]
    rfl
  · intro g hok
    unfold Game.StartGame at hok ⊢
    by_cases h1 : g.gameState ≠ GameState.inLobby
    · rw [if_pos h1] at hok
      simp [Except.isOk, Except.toBool] at hok
    · rw [if_neg h1] at hok ⊢
      by_cases h2 : g.players.length < MinPlayers
      · rw [if_pos h2] at hok
        simp [Except.isOk, Except.toBool] at hok
      · rw [if_neg h2] at hok ⊢
        cases hacc : AccumalateCardPacks g.settings.cardPacks with
        | error e =>
          simp only [hacc] at hok
          simp [Except.isOk, Except.toBool] at hok
        | ok deck =>
          simp only [hacc] at hok ⊢
          obtain ⟨hwnd, hbnd⟩ := AccumalateCardPacks_ok_nodup _ deck hacc
          cases hbc2 : deck.blackCards with
          | nil =>
            simp only [GetNewBlackCard_of_nil deck hbc2] at hok
            simp [Except.isOk, Except.toBool] at hok
          | cons c cr =>
            simp only [GetNewBlackCard_of_cons deck c cr hbc2] at hok ⊢
            cases herr : (dealHands { deck with blackCards := cr }
                g.playersMap).2.2.2 with
            | some e =>
              simp only [herr] at hok
              simp [Except.isOk, Except.toBool] at hok
            | none =>
              simp only [herr]
              refine ⟨by simp, by simp, ?_, ?_⟩
              · intro pid p hmem
                exact dealHands_ok g.playersMap { deck with blackCards := cr }
                  herr hwnd pid p hmem
              · rw [if_pos (by simp)]

/-- Witness for C6: the wrong-state, not-enough-players and
empty-selection failures at concrete games, and a concrete successful
start whose repetition fails with the wrong-state error. -/
theorem startGame_spec_witness :
    gStarted.StartGame = (gStarted, Except.error StartGameErr.wrongState) ∧
    gLone.StartGame = (gLone, Except.error StartGameErr.notEnoughPlayers) ∧
    gNoPacks.StartGame =
      (gNoPacks, Except.error (StartGameErr.deckCreation DeckErr.emptySelection)) ∧
    (gBig.StartGame).1.gameState = GameState.whiteCardsBeingSelected ∧
    ((gBig.StartGame).1.StartGame).2 = Except.error StartGameErr.wrongState :=
  ⟨startGame_spec.1 gStarted (by decide),
   startGame_spec.2.1 gLone (by decide) (by decide),
   startGame_spec.2.2.1 gNoPacks (by decide) (by decide) (by decide),
   (startGame_spec.2.2.2 gBig (by decide)).1,
   (startGame_spec.2.2.2 gBig (by decide)).2.2.2⟩
